import Mathlib

/-!
Verification development for the through-your-letters content-ingestion and
enrichment pipeline.  The Rust sources under `apps/api/src` are shallowly
embedded: pure logic is translated to Lean functions, external collaborators
(object storage, the relational store, the HuggingFace HTTP endpoint, the
redis cache, the image codec) become explicit oracles/environment records,
and the database table `letterings` is modelled as a list of rows.
Machine integers (i64, u64, i32) are modelled as `Int`/`Nat`; none of the
embedded code paths can overflow in a way the claims depend on.  `f32`/`f64`
confidence values are modelled as `Rat` (only comparisons with 0 occur).
-/

namespace TYL

/-- Moderation status of a lettering, from
`domain/lettering/entity.rs` (`LetteringStatus`, stored as the strings
PENDING / APPROVED / REJECTED / REPORTED). -/
inductive LetteringStatus where
  | pending
  | approved
  | rejected
  | reported
deriving DecidableEq, Repr

/-- Thumbnail URL set, from `domain/lettering/entity.rs` (`ThumbnailUrls`). -/
structure ThumbnailUrls where
  small : String
  medium : String
  large : String
deriving DecidableEq, Repr

/-- GeoJSON point, from `domain/lettering/entity.rs` (`Coordinates`).
The `f64` coordinate pair is modelled with `Int` entries; no claim involves
coordinate arithmetic. -/
structure Coordinates where
  type : String
  coordinates : List Int
deriving DecidableEq, Repr

/-- ML metadata block, from `domain/lettering/entity.rs` (`ImageMetadata`).
The database stores these as the separate nullable columns `ml_style`,
`ml_script`, `ml_confidence`, `ml_color_palette`; the entity groups them.
`f32` confidence is modelled as `Rat`. -/
structure ImageMetadata where
  style : Option String
  script : Option String
  confidence : Option Rat
  color_palette : Option (List String)
deriving DecidableEq, Repr

/-- The lettering entity / database row, from
`domain/lettering/entity.rs` (`Lettering`).  `Uuid` identifiers are
modelled as `Nat`, timestamps as `Int` (seconds), the uploader IP as an
optional string. -/
structure Lettering where
  id : Nat
  city_id : Nat
  contributor_tag : String
  image_url : String
  thumbnail_urls : ThumbnailUrls
  location : Coordinates
  pin_code : String
  detected_text : Option String
  ml_metadata : Option ImageMetadata
  description : Option String
  is_lettering : Bool
  status : LetteringStatus
  likes_count : Int
  comments_count : Int
  uploaded_by_ip : Option String
  image_hash : Option String
  report_count : Int
  report_reasons : List String
  cultural_context : Option String
  created_at : Int
  updated_at : Int
deriving DecidableEq, Repr

/-- An enrichment job, from `infrastructure/queue/redis_queue.rs` (`MlJob`). -/
structure MlJob where
  lettering_id : Nat
  image_url : String
deriving DecidableEq, Repr

/-! ## PromotionWorker (`workers/pending_auto_approve.rs`) -/

/-- Configuration state of `PendingAutoApproveWorker` (the db pool and the
broadcaster handle carry no logic and are omitted). -/
structure PendingAutoApproveWorker where
  stale_after_minutes : Int
  interval_seconds : Nat
  batch_size : Int
deriving DecidableEq, Repr

/-- `PendingAutoApproveWorker::new` (`pending_auto_approve.rs` lines 14-29):
each configuration value is clamped with `.max(...)` to a safe minimum. -/
def PendingAutoApproveWorker.new (stale_after_minutes : Int)
    (interval_seconds : Nat) (batch_size : Int) : PendingAutoApproveWorker :=
  { stale_after_minutes := max stale_after_minutes 1
    interval_seconds := max interval_seconds 10
    batch_size := max batch_size 1 }

/-- The placeholder text bound as `$3` in the sweep statement
(`pending_auto_approve.rs` line 51). -/
def placeholderText : String := "Street Discovery"

/-- Insert a row into a list sorted by `created_at` ascending (helper for
the `ORDER BY created_at ASC` clause of the sweep's CTE). -/
def insertByCreatedAt (r : Lettering) : List Lettering → List Lettering
  | [] => [r]
  | x :: xs =>
    if r.created_at ≤ x.created_at then r :: x :: xs
    else x :: insertByCreatedAt r xs

/-- Insertion sort by `created_at` ascending, modelling `ORDER BY
created_at ASC`. -/
def sortByCreatedAt : List Lettering → List Lettering
  | [] => []
  | x :: xs => insertByCreatedAt x (sortByCreatedAt xs)

/-- The `stale` CTE of the sweep statement (`pending_auto_approve.rs` lines
34-41): ids of up to `batch` PENDING rows whose `created_at` lies more than
`staleAfterMinutes` minutes before `now` (time in seconds), oldest first. -/
def staleSelect (db : List Lettering) (now : Int) (staleAfterMinutes : Int)
    (batch : Int) : List Nat :=
  (((sortByCreatedAt (db.filter (fun r =>
      r.status = LetteringStatus.pending ∧
        r.created_at < now - staleAfterMinutes * 60))).take batch.toNat).map
    (fun r => r.id))

/-- The `UPDATE ... WHERE id IN (SELECT id FROM stale) RETURNING id`
statement of the promotion sweep (`pending_auto_approve.rs` lines 33-53):
selected rows get `detected_text = COALESCE(detected_text, placeholder)`,
`status = 'APPROVED'`, `updated_at = NOW()`.  Returns the updated table and
the returned ids. -/
def promoteStale (db : List Lettering) (now : Int) (staleAfterMinutes : Int)
    (batch : Int) : List Lettering × List Nat :=
  let ids := staleSelect db now staleAfterMinutes batch
  (db.map (fun r =>
      if r.id ∈ ids then
        { r with
          detected_text := some (r.detected_text.getD placeholderText)
          status := LetteringStatus.approved
          updated_at := now }
      else r),
    ids)

/-! ## EnrichmentWorker (`workers/ml_processor.rs`)

External collaborators — the HTTP client, the HuggingFace endpoint, the
ONNX detector, the style classifier, and the colour extractor — are
modelled as oracles in an `MlEnv` record.  The control flow of
`process_job`, `detect_text_with_fallback` and `huggingface_ocr` is
translated from the source. -/

/-- One HTTP response of the HuggingFace inference endpoint, as the code
inspects it (`ml_processor.rs` lines 222-281): a 2xx response carries the
`generated_text` field extracted from the JSON body (a missing field is read
as the empty string via `unwrap_or`), or the JSON body fails to parse; the
remaining constructors are the status classes the code distinguishes, plus
a transport error of `send()`. -/
inductive HfResponse where
  | success (generated_text : String)
  | badJson
  | serviceUnavailable
  | unauthorized
  | forbidden
  | tooManyRequests (body : String)
  | other (code : Nat) (body : String)
  | netError (msg : String)
deriving DecidableEq, Repr

/-- Observable trace of one `huggingface_ocr` call: how many POST requests
were sent and the seconds slept after each 503. -/
structure HfCallTrace where
  requests : Nat
  sleeps : List Nat
deriving DecidableEq, Repr

/-- Retry budget of `huggingface_ocr` (`for attempt in 0..3`). -/
def hfAttempts : Nat := 3

/-- Backoff between 503 attempts (`Duration::from_secs(5)`). -/
def hfBackoffSeconds : Nat := 5

/-- The retry loop body of `huggingface_ocr` (`ml_processor.rs` lines
220-286).  `fuel` counts the remaining attempts, so the current attempt
index is `hfAttempts - fuel`; `responses` is the endpoint oracle indexed by
attempt.  Only a 503 continues the loop (after a 5s sleep); when all
attempts were 503 the held `last_error` is returned. -/
def hfLoop (responses : Nat → HfResponse) :
    Nat → HfCallTrace → Except String String × HfCallTrace
  | 0, tr => (Except.error ("HuggingFace model loading (503)"), tr)
  | fuel + 1, tr =>
    let tr := { tr with requests := tr.requests + 1 }
    match responses (hfAttempts - (fuel + 1)) with
    | HfResponse.success t => (Except.ok t, tr)
    | HfResponse.badJson =>
      (Except.error ("Failed to parse HuggingFace response JSON"), tr)
    | HfResponse.serviceUnavailable =>
      hfLoop responses fuel { tr with sleeps := tr.sleeps ++ [hfBackoffSeconds] }
    | HfResponse.unauthorized =>
      (Except.error ("HuggingFace authentication failed (HTTP 401)"), tr)
    | HfResponse.forbidden =>
      (Except.error ("HuggingFace authentication failed (HTTP 403)"), tr)
    | HfResponse.tooManyRequests body =>
      (Except.error ("HuggingFace rate limited (HTTP 429): " ++ body), tr)
    | HfResponse.other code body =>
      (Except.error ("HuggingFace returned unexpected HTTP " ++ toString code
        ++ ": " ++ body), tr)
    | HfResponse.netError msg =>
      (Except.error ("HuggingFace request failed: " ++ msg), tr)

/-- `MlProcessor::huggingface_ocr` (`ml_processor.rs` lines 209-287):
fails immediately when no token is configured, otherwise runs the 3-attempt
retry loop against the endpoint oracle. -/
def huggingface_ocr (token : Option String) (responses : Nat → HfResponse) :
    Except String String × HfCallTrace :=
  match token with
  | none => (Except.error ("HuggingFace token not configured"), ⟨0, []⟩)
  | some _ => hfLoop responses hfAttempts ⟨0, []⟩

/-- Result of the local ONNX detector (`TextDetection` as consumed at
`ml_processor.rs` lines 178-197); `f32` confidence modelled as `Rat`. -/
structure OnnxDetection where
  detected_text : String
  confidence : Rat
deriving DecidableEq, Repr

/-- Result of the local style classifier (`ml_processor.rs` lines 91-101). -/
structure StyleClassification where
  style : String
  confidence : Rat
deriving DecidableEq, Repr

/-- Outcome of the image fetch at the top of `process_job`
(`ml_processor.rs` lines 65-81). -/
inductive FetchResult where
  | netError (msg : String)
  | httpError (code : Nat)
  | ok (bytes : List Nat)
deriving DecidableEq, Repr

/-- Environment of the enrichment worker: the configured token and all
external collaborators as oracles (each a function of the input bytes /
url so distinct inputs may behave differently). -/
structure MlEnv where
  hfToken : Option String
  hfResponses : Nat → HfResponse
  imageFetch : String → FetchResult
  onnxDetect : List Nat → Except String OnnxDetection
  classifyStyle : List Nat → Except String StyleClassification
  extractColors : List Nat → List String
  now : Int

/-- Outcome of `detect_text_with_fallback`, extended with the observable
facts the claims are about: whether the secondary (ONNX) tier was invoked
and the primary-tier call trace. -/
structure DetectOutcome where
  text : String
  onnxInvoked : Bool
  hfTrace : HfCallTrace
deriving DecidableEq, Repr

/-- The tertiary fallback text (`ml_processor.rs` line 201). -/
def defaultDetectedText : String := "Handcrafted Lettering"

/-- Models Rust's `text.trim().is_empty()`: true iff every character is
whitespace (in particular for the empty string). -/
def trimIsEmpty (s : String) : Bool :=
  s.data.all (fun c => c.isWhitespace)

/-- `MlProcessor::detect_text_with_fallback` (`ml_processor.rs` lines
140-202).  Step 1 tries HuggingFace when a token is configured; a
successful reply with non-whitespace text is returned, while an empty /
whitespace reply or an infrastructure error falls through.  Step 2 consults
the ONNX detector and keeps its text only when it is non-empty, not the
sentinel, and has positive confidence.  Step 3 is the fixed default. -/
def detect_text_with_fallback (env : MlEnv) (image_data : List Nat) :
    DetectOutcome :=
  let hfStep : Option String × HfCallTrace :=
    match env.hfToken with
    | some _ =>
      match huggingface_ocr env.hfToken env.hfResponses with
      | (Except.ok text, tr) =>
        if trimIsEmpty text then (none, tr) else (some text, tr)
      | (Except.error _, tr) => (none, tr)
    | none => (none, ⟨0, []⟩)
  match hfStep with
  | (some text, tr) => ⟨text, false, tr⟩
  | (none, tr) =>
    match env.onnxDetect image_data with
    | Except.ok result =>
      if result.detected_text != "" &&
          result.detected_text != "No text detected" &&
          decide (result.confidence > 0) then
        ⟨result.detected_text, true, tr⟩
      else ⟨defaultDetectedText, true, tr⟩
    | Except.error _ => ⟨defaultDetectedText, true, tr⟩

/-- Unicode-block classification of one code point
(`MlProcessor::detect_script`, `ml_processor.rs` lines 292-305). -/
def scriptOf (c : Nat) : Option String :=
  if 0x0900 ≤ c ∧ c ≤ 0x097F then some ("Devanagari")
  else if 0x0980 ≤ c ∧ c ≤ 0x09FF then some ("Bengali")
  else if 0x0A00 ≤ c ∧ c ≤ 0x0A7F then some ("Gurmukhi")
  else if 0x0A80 ≤ c ∧ c ≤ 0x0AFF then some ("Gujarati")
  else if 0x0B00 ≤ c ∧ c ≤ 0x0B7F then some ("Odia")
  else if 0x0B80 ≤ c ∧ c ≤ 0x0BFF then some ("Tamil")
  else if 0x0C00 ≤ c ∧ c ≤ 0x0C7F then some ("Telugu")
  else if 0x0C80 ≤ c ∧ c ≤ 0x0CFF then some ("Kannada")
  else if 0x0D00 ≤ c ∧ c ≤ 0x0D7F then some ("Malayalam")
  else if (0x0600 ≤ c ∧ c ≤ 0x06FF) ∨ (0xFB50 ≤ c ∧ c ≤ 0xFDFF) ∨
      (0xFE70 ≤ c ∧ c ≤ 0xFEFF) then some ("Arabic/Urdu")
  else if 0x0041 ≤ c ∧ c ≤ 0x007A then some ("Latin")
  else none

/-- The script labels in a fixed order.  The Rust code accumulates counts
in a `HashMap` and takes `max_by_key`, whose tie order is unspecified; the
embedding resolves ties by this fixed label order (no claim depends on the
tie order). -/
def scriptLabels : List String :=
  ["Devanagari", "Bengali", "Gurmukhi", "Gujarati", "Odia", "Tamil",
   "Telugu", "Kannada", "Malayalam", "Arabic/Urdu", "Latin"]

/-- `MlProcessor::detect_script` (`ml_processor.rs` lines 289-314): count
the classified code points per script and return a label with the maximal
positive count, if any. -/
def detect_script (text : String) : Option String :=
  let counts := (scriptLabels.map (fun s =>
      (s, (text.data.filter (fun ch => scriptOf ch.toNat = some s)).length))).filter
    (fun p => 0 < p.2)
  match counts with
  | [] => none
  | c :: cs =>
    some (cs.foldl (fun best p => if best.2 < p.2 then p else best) c).1

/-- The persistence statement of `process_job` (`ml_processor.rs` lines
108-117): `UPDATE letterings SET detected_text = $1, ml_color_palette = $2,
ml_style = $3, ml_script = $4, ml_confidence = $5, status = 'APPROVED',
updated_at = NOW() WHERE id = $6`.  The `WHERE` clause matches on the id
only — there is no `status = 'PENDING'` guard. -/
def applyMlUpdate (db : List Lettering) (id : Nat) (text : String)
    (palette : List String) (style : String) (script : Option String)
    (confidence : Rat) (now : Int) : List Lettering :=
  db.map (fun r =>
    if r.id = id then
      { r with
        detected_text := some text
        ml_metadata := some ⟨some style, script, some confidence, some palette⟩
        status := LetteringStatus.approved
        updated_at := now }
    else r)

/-- `MlProcessor::process_job` (`ml_processor.rs` lines 58-134): fetch the
image (failing the job on transport error, non-2xx status, or an empty
body), run the detection cascade, colour extraction and style
classification, derive the script, then persist via the unconditional
update.  Returns the updated table on success. -/
def process_job (env : MlEnv) (db : List Lettering) (job : MlJob) :
    Except String (List Lettering) :=
  match env.imageFetch job.image_url with
  | FetchResult.netError msg =>
    Except.error ("Failed to fetch image: " ++ msg)
  | FetchResult.httpError code =>
    Except.error ("Image fetch returned HTTP " ++ toString code)
  | FetchResult.ok bytes =>
    if bytes.isEmpty then Except.error ("Image fetch returned empty body")
    else
      let det := detect_text_with_fallback env bytes
      let colors := env.extractColors bytes
      let styleResult : String × Rat :=
        match env.classifyStyle bytes with
        | Except.ok c => (c.style, c.confidence)
        | Except.error _ => ("unknown", 0)
      let script := detect_script det.text
      Except.ok (applyMlUpdate db job.lettering_id det.text colors
        styleResult.1 script styleResult.2 env.now)

/-! ## IngestionUseCase (`application/upload_lettering/use_case.rs`)

The repository, the object store, the queue, the SHA-256 digest and the
`image` crate (decode / resize / WebP encode) are external collaborators,
modelled as an `UploadEnv` of oracles; the persisted table, the stored
objects and the queued jobs form an explicit `UploadState`. -/

/-- A decoded image as the embedding needs it: its width (consulted by the
resize guard) plus an abstract payload identifying the pixel data. -/
structure Img where
  width : Nat
  pixels : List Nat
deriving DecidableEq, Repr

/-- The upload request DTO (`application/upload_lettering/dto.rs`):
`city_id`, `contributor_tag`, `pin_code`, `image_data`, `description`,
`uploaded_by_ip`. -/
structure UploadRequest where
  city_id : Nat
  contributor_tag : String
  pin_code : String
  image_data : List Nat
  description : Option String
  uploaded_by_ip : Option String
deriving DecidableEq, Repr

/-- Environment of the upload use case: every external collaborator as an
oracle.  `hashHex` is the SHA-256 hex digest; `decode`, `resize` and
`encodeWebp` model the `image` crate; `upload` models
`StorageService::upload` (returning the public URL); `newId` models
`Uuid::now_v7`; `coords` models `coordinates_for_pincode`; the three
failure flags model transport failures of the repository find, the
repository insert and the queue push. -/
structure UploadEnv where
  hashHex : List Nat → String
  repoFindFails : Bool
  newId : Nat
  decode : List Nat → Except String Img
  resize : Img → Nat → Img
  encodeWebp : Img → Except String (List Nat)
  upload : String → List Nat → Except String String
  coords : String → Int × Int
  createFails : Bool
  enqueueFails : Bool
  now : Int

/-- The mutable world the use case touches: the `letterings` table, the
object store contents (key, bytes), and the redis job queue. -/
structure UploadState where
  rows : List Lettering
  storage : List (String × List Nat)
  queue : List MlJob
deriving DecidableEq, Repr

/-- The duplicate-rejection message (`use_case.rs` lines 112-115). -/
def duplicateMessage (id : Nat) : String :=
  "This image has already been uploaded as lettering " ++ toString id ++
    ". Each image can only be uploaded once."

/-- `UploadLetteringUseCase::convert_to_webp` (`use_case.rs` lines
215-242): decode, resize only when the width exceeds `max_width`, then
re-encode as WebP. -/
def convert_to_webp (env : UploadEnv) (image_data : List Nat)
    (max_width : Nat) : Except String (List Nat) :=
  match env.decode image_data with
  | Except.error e => Except.error ("Invalid or corrupted image data: " ++ e)
  | Except.ok img =>
    let resized := if max_width < img.width then env.resize img max_width else img
    match env.encodeWebp resized with
    | Except.error e => Except.error ("WebP encoding failed: " ++ e)
    | Except.ok webp_data => Except.ok webp_data

/-- The fixed thumbnail widths (`use_case.rs` line 250). -/
def thumbSizes : List (String × Nat) := [("small", 200), ("medium", 600), ("large", 1200)]

/-- The storage key of one derivative
(`format!("letterings/{}/{}.webp", id, name)`, `use_case.rs` line 266). -/
def thumbKey (id : Nat) (name : String) : String :=
  "letterings/" ++ toString id ++ "/" ++ name ++ ".webp"

/-- The storage key of the canonical original
(`format!("letterings/{}/original.webp", ...)`, `use_case.rs` line 120). -/
def originalKey (id : Nat) : String :=
  "letterings/" ++ toString id ++ "/original.webp"

/-- The `for (name, width) in &sizes` loop of `generate_thumbnails`
(`use_case.rs` lines 256-275): resize, encode and upload each derivative in
order, failing fast.  Returns the collected URLs (or the first error)
together with the objects that were successfully uploaded before the
outcome — on failure these already-uploaded derivatives stay in storage
(the source performs no cleanup). -/
def thumbLoop (env : UploadEnv) (img : Img) (id : Nat) :
    List (String × Nat) → Except String (List String) × List (String × List Nat)
  | [] => (Except.ok [], [])
  | (name, width) :: rest =>
    let resized := env.resize img width
    match env.encodeWebp resized with
    | Except.error e => (Except.error ("Thumbnail generation failed: " ++ e), [])
    | Except.ok bytes =>
      let key := thumbKey id name
      match env.upload key bytes with
      | Except.error e =>
        (Except.error (name ++ " thumbnail upload failed: " ++ e), [])
      | Except.ok url =>
        match thumbLoop env img id rest with
        | (Except.ok urls, objs) => (Except.ok (url :: urls), (key, bytes) :: objs)
        | (Except.error e, objs) => (Except.error e, (key, bytes) :: objs)

/-- `UploadLetteringUseCase::generate_thumbnails` (`use_case.rs` lines
244-282): decode the raw bytes, run the loop over the three fixed sizes,
and package the three URLs. -/
def generate_thumbnails (env : UploadEnv) (image_data : List Nat) (id : Nat) :
    Except String ThumbnailUrls × List (String × List Nat) :=
  match env.decode image_data with
  | Except.error e => (Except.error ("Invalid image: " ++ e), [])
  | Except.ok img =>
    match thumbLoop env img id thumbSizes with
    | (Except.ok urls, objs) =>
      (Except.ok ⟨urls.getD 0 "", urls.getD 1 "", urls.getD 2 ""⟩, objs)
    | (Except.error e, objs) => (Except.error e, objs)

/-- The `Lettering` literal built at `use_case.rs` lines 150-178: status
Pending, enrichment fields null, `image_hash` set to the hash computed at
the top of `execute`. -/
def mkLettering (env : UploadEnv) (request : UploadRequest)
    (lettering_id : Nat) (image_url : String)
    (thumbnail_urls : ThumbnailUrls) (image_hash : String) : Lettering :=
  { id := lettering_id
    city_id := request.city_id
    contributor_tag := request.contributor_tag
    image_url := image_url
    thumbnail_urls := thumbnail_urls
    location :=
      { type := "Point"
        coordinates := [(env.coords request.pin_code).1, (env.coords request.pin_code).2] }
    pin_code := request.pin_code
    detected_text := none
    ml_metadata := none
    description := request.description
    is_lettering := true
    status := LetteringStatus.pending
    likes_count := 0
    comments_count := 0
    uploaded_by_ip := request.uploaded_by_ip
    image_hash := some image_hash
    report_count := 0
    report_reasons := []
    cultural_context := none
    created_at := env.now
    updated_at := env.now }

/-- The post-dedup tail of `execute` (`use_case.rs` lines 118-198):
transcode, upload the original, generate/upload the thumbnails, insert the
row, then push the job while discarding the push's outcome
(`let _ = self.queue.enqueue_ml_job(...)`). -/
def executeIngest (env : UploadEnv) (st : UploadState) (request : UploadRequest)
    (image_hash : String) : Except String Lettering × UploadState :=
  let lettering_id := env.newId
  let image_key := originalKey lettering_id
  match convert_to_webp env request.image_data 2048 with
  | Except.error e => (Except.error e, st)
  | Except.ok original_webp =>
    match env.upload image_key original_webp with
    | Except.error e => (Except.error ("Failed to store image: " ++ e), st)
    | Except.ok image_url =>
      let st1 := { st with storage := st.storage ++ [(image_key, original_webp)] }
      match generate_thumbnails env request.image_data lettering_id with
      | (Except.error e, objs) =>
        (Except.error e, { st1 with storage := st1.storage ++ objs })
      | (Except.ok thumbnail_urls, objs) =>
        let st2 := { st1 with storage := st1.storage ++ objs }
        let lettering :=
          mkLettering env request lettering_id image_url thumbnail_urls image_hash
        if env.createFails then (Except.error ("Failed to save lettering"), st2)
        else
          let st3 := { st2 with rows := st2.rows ++ [lettering] }
          let st4 :=
            if env.enqueueFails then st3
            else { st3 with queue := st3.queue ++ [⟨lettering_id, lettering.image_url⟩] }
          (Except.ok lettering, st4)

/-- `UploadLetteringUseCase::execute` (`use_case.rs` lines 91-199): hash
the raw request bytes, fail fast on a duplicate hash (or on a repository
error during the check) before any write, then run the ingestion tail. -/
def execute (env : UploadEnv) (st : UploadState) (request : UploadRequest) :
    Except String Lettering × UploadState :=
  let image_hash := env.hashHex request.image_data
  if env.repoFindFails then
    (Except.error ("Failed to check for duplicates"), st)
  else
    match st.rows.find? (fun r => r.image_hash = some image_hash) with
    | some existing => (Except.error (duplicateMessage existing.id), st)
    | none => executeIngest env st request image_hash

/-! ## FetchThroughCache (`infrastructure/cache/redis_cache.rs`)

`get_or_fetch` coordinates concurrent callers through a redis store.  The
embedding is a small-step interleaving semantics: each caller is a state
machine whose atomic actions are the individual redis operations and the
`fetch_fn` call, and a schedule (a list of events — a caller acting, or
the lock's `LOCK_TTL_SECONDS` TTL elapsing) drives the interleaving.  The
model has no real-time clock, so both caller delays and the TTL elapsing
are nondeterministically scheduled events: every real-time execution
corresponds to some schedule, so a property proved over all schedules
holds for all real timings.  The store is healthy (no transport errors, so
the error-bypass branches of the source are never taken); `fetch_fn` is
deterministic and always returns `Ok v₀`, modelled by the value `v₀`.
Values are `Nat`. -/

/-- `LOCK_MAX_RETRIES` (`redis_cache.rs` line 14). -/
def lockMaxRetries : Nat := 60

/-- The program counter of one `get_or_fetch` caller.  The phases map to
the source as follows: `start` = the initial `get` (line 67); `tryLock` =
the `SET NX EX` (lines 102-117); `wFetch` = the winner's `fetch_fn()`
(line 121); `wSetFresh` / `wSetStale` = the two cache writes (lines
127-141); `wDelLock` = the lock release (line 147); `polling b` = the
wait-and-`get` loop with `b` attempts left (lines 159-179); `readStale` =
the stale-key read (line 182); `direct` = the last-resort direct fetch
(line 204); `done r` = the call returned `Ok r`. -/
inductive CachePhase where
  | start
  | tryLock
  | wFetch
  | wSetFresh (r : Nat)
  | wSetStale (r : Nat)
  | wDelLock (r : Nat)
  | polling (budget : Nat)
  | readStale
  | direct
  | done (r : Nat)
deriving DecidableEq, Repr

/-- Global state of a run: the fresh and stale keys, the lock key, each
caller's phase, and instrumentation — `execs` counts executions of
`fetch_fn`, `acq` counts lock acquisitions, `lateAcq` records whether some
acquisition happened while the fresh key was already populated, `dir`
counts callers that fell through to the direct fetch, and `lockExpired`
records whether the lock's TTL ever elapsed while the lock was held. -/
structure CacheState where
  fresh : Option Nat
  stale : Option Nat
  lock : Bool
  callers : List CachePhase
  execs : Nat
  acq : Nat
  lateAcq : Bool
  dir : Nat
  lockExpired : Bool
deriving DecidableEq, Repr

/-- Replace caller `i`'s phase. -/
def setPhase (s : CacheState) (i : Nat) (ph : CachePhase) : CacheState :=
  { s with callers := s.callers.set i ph }

/-- One scheduled event: a caller performs its next atomic action, or the
lock's `LOCK_TTL_SECONDS` TTL elapses (`redis_cache.rs` line 8 — the
`SET NX EX` key expires on its own). -/
inductive CacheEvent where
  | act (i : Nat)
  | expire
deriving DecidableEq, Repr

/-- One atomic action of caller `i`, following the source line mapping in
`CachePhase`.  A caller that is `done`, or an index out of range,
stutters. -/
def cacheStepAct (v₀ : Nat) (s : CacheState) (i : Nat) : CacheState :=
  match s.callers.get? i with
  | none => s
  | some ph =>
    match ph with
    | CachePhase.start =>
      match s.fresh with
      | some v => setPhase s i (CachePhase.done v)
      | none => setPhase s i CachePhase.tryLock
    | CachePhase.tryLock =>
      if s.lock then setPhase s i (CachePhase.polling lockMaxRetries)
      else
        { setPhase s i CachePhase.wFetch with
          lock := true
          acq := s.acq + 1
          lateAcq := s.lateAcq || s.fresh.isSome }
    | CachePhase.wFetch =>
      { setPhase s i (CachePhase.wSetFresh v₀) with execs := s.execs + 1 }
    | CachePhase.wSetFresh r =>
      { setPhase s i (CachePhase.wSetStale r) with fresh := some r }
    | CachePhase.wSetStale r =>
      { setPhase s i (CachePhase.wDelLock r) with stale := some r }
    | CachePhase.wDelLock r =>
      { setPhase s i (CachePhase.done r) with lock := false }
    | CachePhase.polling budget =>
      match budget with
      | 0 => setPhase s i CachePhase.readStale
      | b + 1 =>
        match s.fresh with
        | some v => setPhase s i (CachePhase.done v)
        | none => setPhase s i (CachePhase.polling b)
    | CachePhase.readStale =>
      match s.stale with
      | some v => setPhase s i (CachePhase.done v)
      | none => setPhase s i CachePhase.direct
    | CachePhase.direct =>
      { setPhase s i (CachePhase.done v₀) with
        execs := s.execs + 1
        dir := s.dir + 1 }
    | CachePhase.done _ => s

/-- One atomic event of the model.  `expire` removes the lock key if it is
still present, recording in `lockExpired` that the TTL elapsed while the
lock was held (expiry of an already-released lock is a no-op); `act i` is
one atomic action of caller `i`. -/
def cacheStep (v₀ : Nat) (s : CacheState) : CacheEvent → CacheState
  | CacheEvent.expire =>
    if s.lock then { s with lock := false, lockExpired := true } else s
  | CacheEvent.act i => cacheStepAct v₀ s i

/-- The initial state for `n` concurrent callers of one missing key: both
keys absent, lock free, every caller about to do its first `get`. -/
def cacheInit (n : Nat) : CacheState :=
  { fresh := none
    stale := none
    lock := false
    callers := List.replicate n CachePhase.start
    execs := 0
    acq := 0
    lateAcq := false
    dir := 0
    lockExpired := false }

/-- Run a schedule from the initial state. -/
def cacheRun (v₀ : Nat) (n : Nat) (sched : List CacheEvent) : CacheState :=
  sched.foldl (cacheStep v₀) (cacheInit n)

/-- Has this caller returned? -/
def CachePhase.isDone : CachePhase → Bool
  | CachePhase.done _ => true
  | _ => false

/-- Every caller has returned. -/
def allDone (s : CacheState) : Bool :=
  s.callers.all CachePhase.isDone

/-- The values returned by the callers that have returned. -/
def cacheResults (s : CacheState) : List Nat :=
  s.callers.filterMap (fun ph =>
    match ph with
    | CachePhase.done r => some r
    | _ => none)

/-- Is the caller between lock acquisition and its `fetch_fn` call? -/
def CachePhase.isWFetch : CachePhase → Bool
  | CachePhase.wFetch => true
  | _ => false

/-- Has this caller's path already performed a `fetch_fn` call (directly or
by reading a value someone fetched)?  Used by the run invariant. -/
def CachePhase.isPastFetch : CachePhase → Bool
  | CachePhase.wSetFresh _ => true
  | CachePhase.wSetStale _ => true
  | CachePhase.wDelLock _ => true
  | CachePhase.done _ => true
  | _ => false

/-- Is the caller a winner past its fresh-key write (so the fresh key is
populated)? -/
def CachePhase.isStaleOrDel : CachePhase → Bool
  | CachePhase.wSetStale _ => true
  | CachePhase.wDelLock _ => true
  | _ => false

/-- Every value a phase carries equals the source's value. -/
def CachePhase.valOk (v₀ : Nat) : CachePhase → Prop
  | CachePhase.wSetFresh r => r = v₀
  | CachePhase.wSetStale r => r = v₀
  | CachePhase.wDelLock r => r = v₀
  | CachePhase.done r => r = v₀
  | _ => True

/-- The run invariant of the cache model: cache keys and caller-held values
only ever hold the source value; as long as the lock never expired while
held, while the fresh key is absent the lock has been acquired at most
once and is still held, and with no late acquisition there is at most one
acquisition; a winner past its fresh-key write certifies the fresh key
populated; the executed-fetch count balances acquisitions and direct
fetches; and any populated key or advanced caller certifies at least one
fetch.  The value conjuncts hold for every schedule, expiry included. -/
structure CacheInv (v₀ : Nat) (s : CacheState) : Prop where
  fresh_val : s.fresh = none ∨ s.fresh = some v₀
  stale_val : s.stale = none ∨ s.stale = some v₀
  caller_val : ∀ ph ∈ s.callers, CachePhase.valOk v₀ ph
  lock_acq : s.lockExpired = false → s.fresh = none →
    (s.acq = 0 ∧ s.lock = false) ∨ (s.acq = 1 ∧ s.lock = true)
  publish_fresh : ∀ ph ∈ s.callers, CachePhase.isStaleOrDel ph = true →
    s.fresh.isSome = true
  late : s.lockExpired = false → s.lateAcq = false → s.acq ≤ 1
  exec_count : s.execs + s.callers.countP CachePhase.isWFetch = s.acq + s.dir
  exec_pos : (s.fresh.isSome = true ∨ s.stale.isSome = true ∨
    ∃ ph ∈ s.callers, CachePhase.isPastFetch ph = true) → 1 ≤ s.execs

/-! ## Concrete fixtures used by counterexamples and witnesses -/

/-- A template row with neutral field values; fixtures override the fields
a scenario cares about. -/
def rowBase : Lettering :=
  { id := 0
    city_id := 0
    contributor_tag := "tag"
    image_url := "https://cdn/letterings/0/original.webp"
    thumbnail_urls := ⟨"s", "m", "l"⟩
    location := ⟨"Point", [77, 12]⟩
    pin_code := "560001"
    detected_text := none
    ml_metadata := none
    description := none
    is_lettering := true
    status := LetteringStatus.pending
    likes_count := 0
    comments_count := 0
    uploaded_by_ip := none
    image_hash := none
    report_count := 0
    report_reasons := []
    cultural_context := none
    created_at := 0
    updated_at := 0 }

/-- A worker environment in which the image fetch succeeds, no HuggingFace
token is configured, and the local tiers succeed. -/
def mlEnvBase : MlEnv :=
  { hfToken := none
    hfResponses := fun _ => HfResponse.serviceUnavailable
    imageFetch := fun _ => FetchResult.ok [1, 2, 3]
    onnxDetect := fun _ => Except.ok ⟨"STREET SIGN", 1⟩
    classifyStyle := fun _ => Except.ok ⟨"bold", 9 / 10⟩
    extractColors := fun _ => ["#000000"]
    now := 100 }

/-- A row that moderation has moved to Rejected, with its moderated
detected text, for which an enrichment job is still queued. -/
def c1Row : Lettering :=
  { rowBase with
    id := 1
    status := LetteringStatus.rejected
    detected_text := some ("moderated") }

/-- The queued job racing the moderation decision on `c1Row`. -/
def c1Job : MlJob := ⟨1, "https://cdn/letterings/1/original.webp"⟩

/-- A stale pending row for the promotion-sweep witness. -/
def c3Db : List Lettering :=
  [{ rowBase with id := 5, status := LetteringStatus.pending, created_at := 0 }]

/-- An upload environment whose oracles are all healthy; the digest oracle
tags the byte count, and the transcoder appends the image width byte, so
that raw bytes and transcoded bytes hash differently. -/
def uploadEnvBase : UploadEnv :=
  { hashHex := fun bytes => "h" ++ toString bytes.length
    repoFindFails := false
    newId := 42
    decode := fun bytes => Except.ok ⟨100, bytes⟩
    resize := fun img w => ⟨w, img.pixels⟩
    encodeWebp := fun img => Except.ok (img.pixels ++ [img.width])
    upload := fun key _ => Except.ok ("https://cdn/" ++ key)
    coords := fun _ => (77, 12)
    createFails := false
    enqueueFails := false
    now := 500 }

/-- A concrete upload request. -/
def req₀ : UploadRequest := ⟨7, "tag", "560001", [1, 2, 3], none, none⟩

/-- The empty world before any upload. -/
def st₀ : UploadState := ⟨[], [], []⟩

/-- The entity persisted by `execute uploadEnvBase st₀ req₀` (spelled out
for use as a witness value). -/
def l₀ : Lettering :=
  mkLettering uploadEnvBase req₀ 42 ("https://cdn/" ++ originalKey 42)
    ⟨"https://cdn/" ++ thumbKey 42 "small", "https://cdn/" ++ thumbKey 42 "medium",
      "https://cdn/" ++ thumbKey 42 "large"⟩ ("h3")

/-- The world after the first successful upload. -/
def st₁ : UploadState := (execute uploadEnvBase st₀ req₀).2

/-- `uploadEnvBase` with a storage service that rejects exactly the medium
derivative upload. -/
def c5BrokenEnv : UploadEnv :=
  { uploadEnvBase with
    upload := fun key _ =>
      if key = thumbKey 42 "medium" then Except.error ("boom")
      else Except.ok ("https://cdn/" ++ key) }

/-- A schedule for two concurrent callers (no TTL event) in which both
observe the initial cache miss, the first caller runs the whole winner
path and releases the lock, and only then is the second caller's `SET NX`
scheduled — so the second caller acquires the freed lock and runs
`fetch_fn` again. -/
def c9BadSched : List CacheEvent :=
  [CacheEvent.act 0, CacheEvent.act 1, CacheEvent.act 0, CacheEvent.act 0,
   CacheEvent.act 0, CacheEvent.act 0, CacheEvent.act 0, CacheEvent.act 1,
   CacheEvent.act 1, CacheEvent.act 1, CacheEvent.act 1, CacheEvent.act 1]

/-- A schedule (no TTL event) in which the winner publishes promptly and
the second caller hits the populated cache on its first `get`. -/
def c9GoodSched : List CacheEvent :=
  [CacheEvent.act 0, CacheEvent.act 0, CacheEvent.act 0, CacheEvent.act 0,
   CacheEvent.act 1, CacheEvent.act 0, CacheEvent.act 0]

/-- A schedule in which the winner's lock expires (its TTL elapses) before
the winner publishes: both callers miss, caller 0 acquires, the TTL
elapses, caller 1 acquires the expired lock, and both run `fetch_fn`. -/
def c9TtlSched : List CacheEvent :=
  [CacheEvent.act 0, CacheEvent.act 1, CacheEvent.act 0, CacheEvent.expire,
   CacheEvent.act 1, CacheEvent.act 0, CacheEvent.act 1, CacheEvent.act 0,
   CacheEvent.act 0, CacheEvent.act 0, CacheEvent.act 1, CacheEvent.act 1,
   CacheEvent.act 1]

/-! ## Theorems -/

/-- C10: `PendingAutoApproveWorker::new` clamps every configuration value
to its minimum — staleness threshold at least 1 minute, sweep interval at
least 10 seconds, batch size at least 1 — for every input triple, including
zero and negative threshold/batch values (the interval is unsigned in the
source, hence `Nat`). -/
theorem c10_worker_config_clamped (s : Int) (i : Nat) (b : Int) :
    (PendingAutoApproveWorker.new s i b).stale_after_minutes = max s 1 ∧
    (PendingAutoApproveWorker.new s i b).interval_seconds = max i 10 ∧
    (PendingAutoApproveWorker.new s i b).batch_size = max b 1 ∧
    1 ≤ (PendingAutoApproveWorker.new s i b).stale_after_minutes ∧
    10 ≤ (PendingAutoApproveWorker.new s i b).interval_seconds ∧
    1 ≤ (PendingAutoApproveWorker.new s i b).batch_size := by
  refine ⟨rfl, rfl, rfl, ?_, ?_, ?_⟩ <;>
    simp [PendingAutoApproveWorker.new]

/-- C8: against the primary-tier endpoint, a run of 503 responses is
retried with a 5-second sleep after each, and only after all 3 attempts are
503 does the call fail; a success response (any text, including the empty
string) returns `Ok` with that text on the first attempt; a 401/403
response terminates the call immediately after however many 503s preceded
it, with no further requests. -/
theorem c8_hf_retry_policy (tok : String) (f : Nat → HfResponse) :
    (f 0 = HfResponse.serviceUnavailable → f 1 = HfResponse.serviceUnavailable →
      f 2 = HfResponse.serviceUnavailable →
      huggingface_ocr (some tok) f =
        (Except.error ("HuggingFace model loading (503)"), ⟨3, [5, 5, 5]⟩)) ∧
    (∀ t, f 0 = HfResponse.success t →
      huggingface_ocr (some tok) f = (Except.ok t, ⟨1, []⟩)) ∧
    (∀ k, k < 3 → (∀ j, j < k → f j = HfResponse.serviceUnavailable) →
      (f k = HfResponse.unauthorized ∨ f k = HfResponse.forbidden) →
      (huggingface_ocr (some tok) f).1.isOk = false ∧
      (huggingface_ocr (some tok) f).2.requests = k + 1 ∧
      (huggingface_ocr (some tok) f).2.sleeps = List.replicate k hfBackoffSeconds) := by
  refine ⟨?_, ?_, ?_⟩
  · intro h0 h1 h2
    simp [huggingface_ocr, hfLoop, hfAttempts, h0, h1, h2, hfBackoffSeconds]
  · intro t h0
    simp [huggingface_ocr, hfLoop, hfAttempts, h0]
  · intro k hk hpre hauth
    interval_cases k
    · rcases hauth with h | h <;>
        simp [huggingface_ocr, hfLoop, hfAttempts, h, Except.isOk, Except.toBool]
    · have h0 := hpre 0 (by norm_num)
      rcases hauth with h | h <;>
        simp [huggingface_ocr, hfLoop, hfAttempts, h0, h, hfBackoffSeconds,
          List.replicate, Except.isOk, Except.toBool]
    · have h0 := hpre 0 (by norm_num)
      have h1 := hpre 1 (by norm_num)
      rcases hauth with h | h <;>
        simp [huggingface_ocr, hfLoop, hfAttempts, h0, h1, h, hfBackoffSeconds,
          List.replicate, Except.isOk, Except.toBool]

/-- Witness for C8: the three policies evaluated at concrete oracles. -/
theorem c8_hf_retry_policy_witness :
    huggingface_ocr (some ("tok")) (fun _ => HfResponse.serviceUnavailable) =
      (Except.error ("HuggingFace model loading (503)"), ⟨3, [5, 5, 5]⟩) ∧
    huggingface_ocr (some ("tok")) (fun _ => HfResponse.success "") =
      (Except.ok "", ⟨1, []⟩) ∧
    (huggingface_ocr (some ("tok")) (fun _ => HfResponse.unauthorized)).2.requests = 1 :=
  ⟨(c8_hf_retry_policy "tok" _).1 rfl rfl rfl,
    (c8_hf_retry_policy "tok" _).2.1 "" rfl,
    ((c8_hf_retry_policy "tok" _).2.2 0 (by norm_num)
      (fun j hj => absurd hj (by simp)) (Or.inl rfl)).2.1⟩

/-- C2 (code at `ml_processor.rs` lines 140-202): when the primary tier
succeeds with empty text, the cascade does NOT stop — the embedded
`detect_text_with_fallback` invokes the ONNX detector and returns its
answer.  The claim (and §9 of the spec, and `huggingface_ocr`'s own doc
comment about letting the caller distinguish "no text" from infrastructure
failure) says the empty success should have been final with the secondary
tier not invoked. -/
theorem c2_empty_primary_falls_through_to_onnx :
    detect_text_with_fallback
        { mlEnvBase with
          hfToken := some ("tok")
          hfResponses := fun _ => HfResponse.success "" } [1, 2, 3] =
      ⟨"STREET SIGN", true, ⟨1, []⟩⟩ := by
  decide

/-- C1 (code at `ml_processor.rs` lines 106-117): the enrichment worker's
persistence statement carries no `status = 'PENDING'` guard, so processing
a job for a row that moderation has already moved to Rejected overwrites
its status (to Approved) and its enrichment fields, where the claim (and
§4.2 of the spec) requires the row to be left unchanged. -/
theorem c1_rejected_row_overwritten_by_worker :
    c1Row.status = LetteringStatus.rejected ∧
    c1Row.detected_text = some ("moderated") ∧
    (process_job mlEnvBase [c1Row] c1Job).toOption.map
        (fun db => db.map (fun r => (r.status, r.detected_text))) =
      some [(LetteringStatus.approved, some ("STREET SIGN"))] := by
  refine ⟨rfl, rfl, ?_⟩
  decide

/-- Membership is invariant under the insertion step of the sort. -/
theorem mem_insertByCreatedAt {a r : Lettering} {l : List Lettering} :
    a ∈ insertByCreatedAt r l ↔ a = r ∨ a ∈ l := by
  induction l with
  | nil => simp [insertByCreatedAt]
  | cons x xs ih =>
    simp only [insertByCreatedAt]
    split
    · simp [List.mem_cons]
    · simp only [List.mem_cons, ih]
      tauto

/-- Membership is invariant under the `ORDER BY` sort. -/
theorem mem_sortByCreatedAt {a : Lettering} {l : List Lettering} :
    a ∈ sortByCreatedAt l ↔ a ∈ l := by
  induction l with
  | nil => simp [sortByCreatedAt]
  | cons x xs ih =>
    simp [sortByCreatedAt, mem_insertByCreatedAt, ih, List.mem_cons]

/-- C3: a row promoted by one sweep is never selected by a later sweep —
after the first sweep every row carrying a returned id has status Approved,
and the selection requires status Pending, for any later `now'` and the
same threshold/batch configuration. -/
theorem c3_promotion_sweep_idempotent (db : List Lettering)
    (now now' sa b : Int) (id : Nat)
    (h : id ∈ (promoteStale db now sa b).2) :
    id ∉ staleSelect (promoteStale db now sa b).1 now' sa b := by
  intro hmem
  unfold staleSelect at hmem
  obtain ⟨r, hrtake, hrid⟩ := List.mem_map.mp hmem
  have hrsort := List.mem_of_mem_take hrtake
  have hrfilter := mem_sortByCreatedAt.mp hrsort
  obtain ⟨hrmem, hrpred⟩ := List.mem_filter.mp hrfilter
  have hpend : r.status = LetteringStatus.pending :=
    (of_decide_eq_true hrpred).1
  have hmap : (promoteStale db now sa b).1 = db.map (fun r =>
      if r.id ∈ staleSelect db now sa b then
        { r with
          detected_text := some (r.detected_text.getD placeholderText)
          status := LetteringStatus.approved
          updated_at := now }
      else r) := rfl
  rw [hmap] at hrmem
  obtain ⟨r₀, hr₀mem, hr₀eq⟩ := List.mem_map.mp hrmem
  have hids : (promoteStale db now sa b).2 = staleSelect db now sa b := rfl
  rw [hids] at h
  by_cases hin : r₀.id ∈ staleSelect db now sa b
  · rw [if_pos hin] at hr₀eq
    rw [← hr₀eq] at hpend
    exact absurd hpend (by simp)
  · rw [if_neg hin] at hr₀eq
    rw [← hr₀eq] at hrid
    rw [hrid] at hin
    exact hin h

/-- Witness for C3: the single stale pending row of `c3Db` is promoted by
the first sweep and not selected by the second. -/
theorem c3_promotion_sweep_idempotent_witness :
    5 ∈ (promoteStale c3Db 10000 1 10).2 ∧
    5 ∉ staleSelect (promoteStale c3Db 10000 1 10).1 10000 1 10 :=
  ⟨by decide, c3_promotion_sweep_idempotent c3Db 10000 10000 1 10 5 (by decide)⟩

/-- Inversion of a successful `generate_thumbnails`: the bytes decoded and
all three derivative encodes and uploads succeeded, and the returned URL
set is exactly the three upload results in size order. -/
theorem generate_thumbnails_ok {env : UploadEnv} {data : List Nat} {id : Nat}
    {tu : ThumbnailUrls} {objs : List (String × List Nat)}
    (h : generate_thumbnails env data id = (Except.ok tu, objs)) :
    ∃ img b₁ b₂ b₃,
      env.decode data = Except.ok img ∧
      env.encodeWebp (env.resize img 200) = Except.ok b₁ ∧
      env.upload (thumbKey id "small") b₁ = Except.ok tu.small ∧
      env.encodeWebp (env.resize img 600) = Except.ok b₂ ∧
      env.upload (thumbKey id "medium") b₂ = Except.ok tu.medium ∧
      env.encodeWebp (env.resize img 1200) = Except.ok b₃ ∧
      env.upload (thumbKey id "large") b₃ = Except.ok tu.large := by
  unfold generate_thumbnails at h
  rcases hdec : env.decode data with e | img <;> simp only [hdec] at h
  · exact absurd h (by simp)
  simp only [thumbSizes, thumbLoop] at h
  rcases henc₁ : env.encodeWebp (env.resize img 200) with e | b₁ <;>
    simp only [henc₁] at h
  · exact absurd h (by simp)
  rcases hup₁ : env.upload (thumbKey id "small") b₁ with e | u₁ <;>
    simp only [hup₁] at h
  · exact absurd h (by simp)
  rcases henc₂ : env.encodeWebp (env.resize img 600) with e | b₂ <;>
    simp only [henc₂] at h
  · exact absurd h (by simp)
  rcases hup₂ : env.upload (thumbKey id "medium") b₂ with e | u₂ <;>
    simp only [hup₂] at h
  · exact absurd h (by simp)
  rcases henc₃ : env.encodeWebp (env.resize img 1200) with e | b₃ <;>
    simp only [henc₃] at h
  · exact absurd h (by simp)
  rcases hup₃ : env.upload (thumbKey id "large") b₃ with e | u₃ <;>
    simp only [hup₃] at h
  · exact absurd h (by simp)
  simp only [List.getD, Prod.mk.injEq, Except.ok.injEq] at h
  obtain ⟨htu, hobjs⟩ := h
  subst htu
  exact ⟨img, b₁, b₂, b₃, rfl, henc₁, hup₁, henc₂, hup₂, henc₃, hup₃⟩

/-- Inversion of a successful `execute`: the duplicate check passed, every
external step succeeded, and the returned entity is the constructed row,
appended to the table. -/
theorem execute_ok_inversion {env : UploadEnv} {st : UploadState}
    {req : UploadRequest} {l : Lettering} {st₂ : UploadState}
    (h : execute env st req = (Except.ok l, st₂)) :
    env.repoFindFails = false ∧
    st.rows.find? (fun r => r.image_hash = some (env.hashHex req.image_data)) =
      none ∧
    env.createFails = false ∧
    ∃ w url tu objs,
      convert_to_webp env req.image_data 2048 = Except.ok w ∧
      env.upload (originalKey env.newId) w = Except.ok url ∧
      generate_thumbnails env req.image_data env.newId = (Except.ok tu, objs) ∧
      l = mkLettering env req env.newId url tu (env.hashHex req.image_data) ∧
      st₂.rows = st.rows ++ [l] := by
  unfold execute at h
  rcases hrf : env.repoFindFails <;> rw [hrf] at h
  case true => exact absurd h (by simp)
  simp only [Bool.false_eq_true, if_false] at h
  rcases hfind : st.rows.find?
      (fun r => r.image_hash = some (env.hashHex req.image_data)) with _ | ex <;>
    simp only [hfind] at h
  case some => exact absurd h (by simp)
  unfold executeIngest at h
  rcases hconv : convert_to_webp env req.image_data 2048 with e | w <;>
    simp only [hconv] at h
  · exact absurd h (by simp)
  rcases hup : env.upload (originalKey env.newId) w with e | url <;>
    simp only [hup] at h
  · exact absurd h (by simp)
  rcases hgen : generate_thumbnails env req.image_data env.newId with ⟨res, objs⟩
  simp only [hgen] at h
  rcases res with e | tu
  · exact absurd h (by simp)
  rcases hcf : env.createFails <;>
    simp only [hcf, Bool.false_eq_true, if_false] at h
  case true => exact absurd h (by simp)
  rcases henq : env.enqueueFails <;>
    simp only [henq, Bool.false_eq_true, eq_self_iff_true, if_true, if_false,
      Prod.mk.injEq, Except.ok.injEq] at h <;>
    obtain ⟨hl, hst⟩ := h
  · exact ⟨rfl, hfind, rfl, w, url, tu, objs, rfl, hup, rfl, hl.symm,
      by rw [← hst, ← hl]⟩
  · exact ⟨rfl, hfind, rfl, w, url, tu, objs, rfl, hup, rfl, hl.symm,
      by rw [← hst, ← hl]⟩

/-- C4: when a row with the same content hash already exists, `execute`
fails with the duplicate error and the world is untouched (no storage
upload, no row insert, no enqueue); and after a successful upload of some
bytes — which persists exactly one new row — re-submitting the same bytes
fails with the duplicate error naming the first row, again leaving the
world untouched. -/
theorem c4_duplicate_rejected_before_any_write (env : UploadEnv)
    (st : UploadState) (req : UploadRequest) :
    (∀ ex, env.repoFindFails = false →
      st.rows.find? (fun r => r.image_hash = some (env.hashHex req.image_data)) =
        some ex →
      execute env st req = (Except.error (duplicateMessage ex.id), st)) ∧
    (∀ l st₂, execute env st req = (Except.ok l, st₂) →
      st₂.rows = st.rows ++ [l] ∧
      execute env st₂ req = (Except.error (duplicateMessage l.id), st₂)) := by
  have dup : ∀ (st' : UploadState) ex, env.repoFindFails = false →
      st'.rows.find? (fun r => r.image_hash = some (env.hashHex req.image_data)) =
        some ex →
      execute env st' req = (Except.error (duplicateMessage ex.id), st') := by
    intro st' ex hrf hfind
    unfold execute
    rw [hrf]
    simp only [Bool.false_eq_true, if_false, hfind]
  refine ⟨dup st, ?_⟩
  intro l st₂ hok
  obtain ⟨hrf, hfind, hcf, w, url, tu, objs, hconv, hup, hgen, hl, hrows⟩ :=
    execute_ok_inversion hok
  refine ⟨hrows, ?_⟩
  have hfind₂ : st₂.rows.find?
      (fun r => r.image_hash = some (env.hashHex req.image_data)) = some l := by
    rw [hrows, List.find?_append, hfind, Option.none_or]
    have : l.image_hash = some (env.hashHex req.image_data) := by
      rw [hl]; rfl
    simp [List.find?, this]
  exact dup st₂ l hrf hfind₂

/-- Witness for C4: a first upload in the healthy environment persists
exactly one row, and replaying the identical bytes is rejected with the
duplicate error and no state change. -/
theorem c4_duplicate_rejected_before_any_write_witness :
    execute uploadEnvBase st₀ req₀ = (Except.ok l₀, st₁) ∧
    st₁.rows = st₀.rows ++ [l₀] ∧
    execute uploadEnvBase st₁ req₀ =
      (Except.error (duplicateMessage l₀.id), st₁) :=
  ⟨rfl,
    ((c4_duplicate_rejected_before_any_write uploadEnvBase st₀ req₀).2 l₀ st₁ rfl).1,
    ((c4_duplicate_rejected_before_any_write uploadEnvBase st₀ req₀).2 l₀ st₁ rfl).2⟩

/-- C5: an `execute` that returns an error never persists a row; a failing
thumbnail stage forces `execute` to fail; and a persisted row's three
derivative URLs are exactly the results of three successful derivative
uploads (small/medium/large) — a partially populated derivative set cannot
be persisted. -/
theorem c5_derivatives_all_or_nothing (env : UploadEnv) (st : UploadState)
    (req : UploadRequest) :
    (∀ e st₂, execute env st req = (Except.error e, st₂) → st₂.rows = st.rows) ∧
    ((generate_thumbnails env req.image_data env.newId).1.isOk = false →
      (execute env st req).1.isOk = false) ∧
    (∀ l st₂, execute env st req = (Except.ok l, st₂) →
      ∃ b₁ b₂ b₃,
        env.upload (thumbKey env.newId "small") b₁ =
          Except.ok l.thumbnail_urls.small ∧
        env.upload (thumbKey env.newId "medium") b₂ =
          Except.ok l.thumbnail_urls.medium ∧
        env.upload (thumbKey env.newId "large") b₃ =
          Except.ok l.thumbnail_urls.large) := by
  refine ⟨?_, ?_, ?_⟩
  · intro e st₂ h
    unfold execute at h
    rcases hrf : env.repoFindFails <;> rw [hrf] at h
    case true =>
      simp only [if_true, Prod.mk.injEq] at h
      rw [← h.2]
    simp only [Bool.false_eq_true, if_false] at h
    rcases hfind : st.rows.find?
        (fun r => r.image_hash = some (env.hashHex req.image_data)) with _ | ex <;>
      simp only [hfind] at h
    case some =>
      rw [Prod.mk.injEq] at h
      rw [← h.2]
    unfold executeIngest at h
    rcases hconv : convert_to_webp env req.image_data 2048 with e' | w <;>
      simp only [hconv] at h
    · rw [Prod.mk.injEq] at h
      rw [← h.2]
    rcases hup : env.upload (originalKey env.newId) w with e' | url <;>
      simp only [hup] at h
    · rw [Prod.mk.injEq] at h
      rw [← h.2]
    rcases hgen : generate_thumbnails env req.image_data env.newId with ⟨res, objs⟩
    simp only [hgen] at h
    rcases res with e' | tu
    · rw [Prod.mk.injEq] at h
      rw [← h.2]
    rcases hcf : env.createFails <;>
      simp only [hcf, Bool.false_eq_true, if_false, if_true] at h
    case true =>
      rw [Prod.mk.injEq] at h
      rw [← h.2]
    rcases henq : env.enqueueFails <;>
      simp only [henq, Bool.false_eq_true, eq_self_iff_true, if_true, if_false,
        Prod.mk.injEq] at h <;> exact absurd h.1 (by simp)
  · intro hbad
    rcases hfull : execute env st req with ⟨res, st₂⟩
    rcases res with e | l
    · simp [Except.isOk, Except.toBool]
    · exfalso
      obtain ⟨-, -, -, w, url, tu, objs, -, -, hgen, -, -⟩ :=
        execute_ok_inversion hfull
      rw [hgen] at hbad
      simp [Except.isOk, Except.toBool] at hbad
  · intro l st₂ hok
    obtain ⟨-, -, -, w, url, tu, objs, -, -, hgen, hl, -⟩ :=
      execute_ok_inversion hok
    obtain ⟨img, b₁, b₂, b₃, -, -, hup₁, -, hup₂, -, hup₃⟩ :=
      generate_thumbnails_ok hgen
    refine ⟨b₁, b₂, b₃, ?_, ?_, ?_⟩ <;> rw [hl] <;> assumption

/-- Witness for C5: with a storage service that rejects exactly the medium
derivative, the thumbnail stage fails and so does `execute`. -/
theorem c5_derivatives_all_or_nothing_witness :
    (generate_thumbnails c5BrokenEnv req₀.image_data c5BrokenEnv.newId).1.isOk =
      false ∧
    (execute c5BrokenEnv st₀ req₀).1.isOk = false :=
  ⟨by decide,
    (c5_derivatives_all_or_nothing c5BrokenEnv st₀ req₀).2.1 (by decide)⟩

/-- Counterexample to C6 as stated: in a run of `execute` where every step
succeeds, the persisted `image_hash` is the digest of the RAW request bytes
(`[1,2,3]`, digest "h3"), not the digest of the canonical transcoded bytes
(`convert_to_webp` yields `[1,2,3,100]`, digest "h4") — the source hashes
`request.image_data` at `use_case.rs` lines 93-99, before transcoding. -/
theorem c6_hash_of_raw_bytes_counterexample :
    (execute uploadEnvBase st₀ req₀).1.toOption.map (fun l => l.image_hash) =
      some (some ("h3")) ∧
    convert_to_webp uploadEnvBase req₀.image_data 2048 =
      Except.ok ([1, 2, 3, 100]) ∧
    uploadEnvBase.hashHex ([1, 2, 3, 100]) = "h4" ∧
    (execute uploadEnvBase st₀ req₀).1.toOption.map (fun l => l.image_hash) ≠
      some (some (uploadEnvBase.hashHex ([1, 2, 3, 100]))) := by
  refine ⟨rfl, rfl, rfl, ?_⟩
  decide

/-- C6 (amended): for every successfully ingested submission the stored
`image_hash` equals the hex digest of the RAW input bytes, computed before
transcoding. -/
theorem c6_hash_is_of_raw_input_bytes (env : UploadEnv) (st : UploadState)
    (req : UploadRequest) (l : Lettering) (st₂ : UploadState)
    (h : execute env st req = (Except.ok l, st₂)) :
    l.image_hash = some (env.hashHex req.image_data) := by
  obtain ⟨-, -, -, w, url, tu, objs, -, -, -, hl, -⟩ := execute_ok_inversion h
  rw [hl]
  rfl

/-- Witness for C6 (amended): the healthy run persists digest "h3" —
the digest of the raw bytes `[1,2,3]`. -/
theorem c6_hash_is_of_raw_input_bytes_witness :
    l₀.image_hash = some (uploadEnvBase.hashHex req₀.image_data) :=
  c6_hash_is_of_raw_input_bytes uploadEnvBase st₀ req₀ l₀ st₁ rfl

/-- The ingestion tail's outcome and persisted rows do not depend on the
enqueue flag (the flag only affects the queue component). -/
theorem executeIngest_enqueue_irrel (env : UploadEnv) (b : Bool)
    (st : UploadState) (req : UploadRequest) (ih : String) :
    (executeIngest { env with enqueueFails := b } st req ih).1 =
      (executeIngest env st req ih).1 ∧
    (executeIngest { env with enqueueFails := b } st req ih).2.rows =
      (executeIngest env st req ih).2.rows := by
  unfold executeIngest
  have hc : convert_to_webp { env with enqueueFails := b } req.image_data 2048 =
      convert_to_webp env req.image_data 2048 := rfl
  have hg : generate_thumbnails { env with enqueueFails := b } req.image_data
      env.newId = generate_thumbnails env req.image_data env.newId := rfl
  have hmk : ∀ url tu,
      mkLettering { env with enqueueFails := b } req env.newId url tu ih =
        mkLettering env req env.newId url tu ih := fun _ _ => rfl
  simp only [hc, hg, hmk]
  constructor <;> (repeat' split) <;> rfl

/-- `execute`'s outcome and persisted rows do not depend on the enqueue
flag. -/
theorem execute_enqueue_irrel (env : UploadEnv) (b : Bool)
    (st : UploadState) (req : UploadRequest) :
    (execute { env with enqueueFails := b } st req).1 =
      (execute env st req).1 ∧
    (execute { env with enqueueFails := b } st req).2.rows =
      (execute env st req).2.rows := by
  have hI := executeIngest_enqueue_irrel env b st req (env.hashHex req.image_data)
  set env' := { env with enqueueFails := b } with henv'
  unfold execute
  simp only [show env'.repoFindFails = env.repoFindFails from rfl,
    show env'.hashHex = env.hashHex from rfl]
  rcases hrf : env.repoFindFails
  case true => exact ⟨rfl, rfl⟩
  constructor
  · split
    case isTrue hcontra => exact absurd hcontra (by simp)
    split
    · next ex heq => simp only [heq]
    · next heq => simp only [heq]; exact hI.1
  · split
    case isTrue hcontra => exact absurd hcontra (by simp)
    split
    · next ex heq => simp only [heq]
    · next heq => simp only [heq]; exact hI.2

/-- C7: the outcome and the persisted rows of `execute` are independent of
whether the queue push fails — a failing enqueue never turns the call into
an error and never rolls back the insert — and a successful call returns
the created row, in status Pending, appended to the table. -/
theorem c7_enqueue_failure_never_rolls_back (env : UploadEnv)
    (st : UploadState) (req : UploadRequest) (b : Bool) :
    ((execute { env with enqueueFails := b } st req).1 =
      (execute { env with enqueueFails := false } st req).1) ∧
    ((execute { env with enqueueFails := b } st req).2.rows =
      (execute { env with enqueueFails := false } st req).2.rows) ∧
    (∀ l st₂, execute { env with enqueueFails := b } st req = (Except.ok l, st₂) →
      l.status = LetteringStatus.pending ∧ st₂.rows = st.rows ++ [l]) := by
  refine ⟨?_, ?_, ?_⟩
  · exact (execute_enqueue_irrel env b st req).1.trans
      (execute_enqueue_irrel env false st req).1.symm
  · exact (execute_enqueue_irrel env b st req).2.trans
      (execute_enqueue_irrel env false st req).2.symm
  · intro l st₂ h
    obtain ⟨-, -, -, w, url, tu, objs, -, -, -, hl, hrows⟩ :=
      execute_ok_inversion h
    exact ⟨by rw [hl]; rfl, hrows⟩

/-- Witness for C7: in the healthy environment with a failing queue push,
the upload still succeeds with the Pending row persisted, and the outcome
matches the healthy-queue run. -/
theorem c7_enqueue_failure_never_rolls_back_witness :
    (execute { uploadEnvBase with enqueueFails := true } st₀ req₀).1 =
      (execute { uploadEnvBase with enqueueFails := false } st₀ req₀).1 ∧
    l₀.status = LetteringStatus.pending ∧
    (execute { uploadEnvBase with enqueueFails := true } st₀ req₀).2.rows =
      st₀.rows ++ [l₀] :=
  ⟨(c7_enqueue_failure_never_rolls_back uploadEnvBase st₀ req₀ true).1,
    ((c7_enqueue_failure_never_rolls_back uploadEnvBase st₀ req₀ true).2.2 l₀
      (execute { uploadEnvBase with enqueueFails := true } st₀ req₀).2 rfl).1,
    ((c7_enqueue_failure_never_rolls_back uploadEnvBase st₀ req₀ true).2.2 l₀
      (execute { uploadEnvBase with enqueueFails := true } st₀ req₀).2 rfl).2⟩

/-- Setting an element reshuffles a `countP` by the old and new element's
contributions. -/
theorem countP_set_of_get? {l : List CachePhase} {i : Nat} {ph : CachePhase}
    (hget : l.get? i = some ph) (p : CachePhase → Bool) (ph' : CachePhase) :
    (l.set i ph').countP p + (if p ph then 1 else 0) =
      l.countP p + (if p ph' then 1 else 0) := by
  obtain ⟨hlt, hEl⟩ := List.getElem?_eq_some_iff.mp
    (by rw [← List.get?_eq_getElem?]; exact hget)
  rw [List.countP_set p l i ph' hlt, hEl]
  rcases hp : p ph
  · simp [hp]
  · have hmem : ph ∈ l := hEl ▸ List.getElem_mem hlt
    have hpos : 0 < l.countP p := List.countP_pos.mpr ⟨ph, hmem, hp⟩
    rcases hp' : p ph' <;> simp [hp, hp'] <;> omega

/-- Invariant preservation for the steps that only advance a caller's phase
(no store field changes): the new phase must hold a correct value, have the
same `wFetch`-ness, certify the fresh key if it is a post-publish winner
phase, and certify a previous fetch if it is a post-fetch phase. -/
theorem inv_pure_step {v₀ : Nat} {s : CacheState} {i : Nat} {ph : CachePhase}
    (ph' : CachePhase) (hget : s.callers.get? i = some ph)
    (hInv : CacheInv v₀ s)
    (hval : CachePhase.valOk v₀ ph')
    (hwf : CachePhase.isWFetch ph' = CachePhase.isWFetch ph)
    (hsd : CachePhase.isStaleOrDel ph' = true → s.fresh.isSome = true)
    (hpast : CachePhase.isPastFetch ph' = true → 1 ≤ s.execs) :
    CacheInv v₀ (setPhase s i ph') := by
  have hcount := countP_set_of_get? hget CachePhase.isWFetch ph'
  constructor
  · exact hInv.fresh_val
  · exact hInv.stale_val
  · intro x hx
    rcases List.mem_or_eq_of_mem_set hx with hmx | rfl
    · exact hInv.caller_val x hmx
    · exact hval
  · exact hInv.lock_acq
  · intro x hx hsdx
    rcases List.mem_or_eq_of_mem_set hx with hmx | rfl
    · exact hInv.publish_fresh x hmx hsdx
    · exact hsd hsdx
  · exact hInv.late
  · have h7 := hInv.exec_count
    rw [hwf] at hcount
    show s.execs + (s.callers.set i ph').countP CachePhase.isWFetch =
      s.acq + s.dir
    omega
  · intro htrig
    rcases htrig with h | h | ⟨x, hx, hpx⟩
    · exact hInv.exec_pos (Or.inl h)
    · exact hInv.exec_pos (Or.inr (Or.inl h))
    · rcases List.mem_or_eq_of_mem_set hx with hmx | rfl
      · exact hInv.exec_pos (Or.inr (Or.inr ⟨x, hmx, hpx⟩))
      · exact hpast hpx

/-- Invariant preservation for a successful `SET NX` (lock acquisition). -/
theorem inv_step_acquire {v₀ : Nat} {s : CacheState} {i : Nat}
    (hget : s.callers.get? i = some CachePhase.tryLock)
    (hlock : s.lock = false) (hInv : CacheInv v₀ s) :
    CacheInv v₀
      { setPhase s i CachePhase.wFetch with
        lock := true
        acq := s.acq + 1
        lateAcq := s.lateAcq || s.fresh.isSome } := by
  have hcount := countP_set_of_get? hget CachePhase.isWFetch CachePhase.wFetch
  constructor
  · exact hInv.fresh_val
  · exact hInv.stale_val
  · intro x hx
    rcases List.mem_or_eq_of_mem_set hx with hmx | rfl
    · exact hInv.caller_val x hmx
    · trivial
  · intro hexp hfresh
    rcases hInv.lock_acq hexp hfresh with ⟨ha, -⟩ | ⟨-, hl⟩
    · exact Or.inr ⟨by simp [ha], rfl⟩
    · rw [hlock] at hl
      cases hl
  · intro x hx hsdx
    rcases List.mem_or_eq_of_mem_set hx with hmx | rfl
    · exact hInv.publish_fresh x hmx hsdx
    · simp [CachePhase.isStaleOrDel] at hsdx
  · intro hexp hlate
    rcases Bool.or_eq_false_iff.mp hlate with ⟨-, hl2⟩
    have hfresh : s.fresh = none :=
      Option.not_isSome_iff_eq_none.mp (by simp [hl2])
    rcases hInv.lock_acq hexp hfresh with ⟨ha, -⟩ | ⟨-, hl⟩
    · show s.acq + 1 ≤ 1
      omega
    · rw [hlock] at hl
      cases hl
  · have h7 := hInv.exec_count
    simp [CachePhase.isWFetch] at hcount
    show s.execs + (s.callers.set i CachePhase.wFetch).countP
        CachePhase.isWFetch = s.acq + 1 + s.dir
    omega
  · intro htrig
    rcases htrig with h | h | ⟨x, hx, hpx⟩
    · exact hInv.exec_pos (Or.inl h)
    · exact hInv.exec_pos (Or.inr (Or.inl h))
    · rcases List.mem_or_eq_of_mem_set hx with hmx | rfl
      · exact hInv.exec_pos (Or.inr (Or.inr ⟨x, hmx, hpx⟩))
      · simp [CachePhase.isPastFetch] at hpx

/-- Invariant preservation for the winner's `fetch_fn` call. -/
theorem inv_step_fetch {v₀ : Nat} {s : CacheState} {i : Nat}
    (hget : s.callers.get? i = some CachePhase.wFetch)
    (hInv : CacheInv v₀ s) :
    CacheInv v₀
      { setPhase s i (CachePhase.wSetFresh v₀) with execs := s.execs + 1 } := by
  have hcount := countP_set_of_get? hget CachePhase.isWFetch
    (CachePhase.wSetFresh v₀)
  constructor
  · exact hInv.fresh_val
  · exact hInv.stale_val
  · intro x hx
    rcases List.mem_or_eq_of_mem_set hx with hmx | rfl
    · exact hInv.caller_val x hmx
    · exact rfl
  · exact hInv.lock_acq
  · intro x hx hsdx
    rcases List.mem_or_eq_of_mem_set hx with hmx | rfl
    · exact hInv.publish_fresh x hmx hsdx
    · simp [CachePhase.isStaleOrDel] at hsdx
  · exact hInv.late
  · have h7 := hInv.exec_count
    simp [CachePhase.isWFetch] at hcount
    show s.execs + 1 + (s.callers.set i (CachePhase.wSetFresh v₀)).countP
        CachePhase.isWFetch = s.acq + s.dir
    omega
  · intro _
    show 1 ≤ s.execs + 1
    omega

/-- Invariant preservation for the winner's fresh-key write. -/
theorem inv_step_set_fresh {v₀ : Nat} {s : CacheState} {i : Nat} {r : Nat}
    (hget : s.callers.get? i = some (CachePhase.wSetFresh r))
    (hInv : CacheInv v₀ s) :
    CacheInv v₀
      { setPhase s i (CachePhase.wSetStale r) with fresh := some r } := by
  have hr : r = v₀ := hInv.caller_val _ (List.get?_mem hget)
  have hcount := countP_set_of_get? hget CachePhase.isWFetch
    (CachePhase.wSetStale r)
  have hpast : 1 ≤ s.execs := hInv.exec_pos (Or.inr (Or.inr
    ⟨CachePhase.wSetFresh r, List.get?_mem hget, rfl⟩))
  constructor
  · exact Or.inr (by rw [hr])
  · exact hInv.stale_val
  · intro x hx
    rcases List.mem_or_eq_of_mem_set hx with hmx | rfl
    · exact hInv.caller_val x hmx
    · exact hr
  · intro _ hfresh
    cases hfresh
  · intro x hx hsdx
    rfl
  · exact hInv.late
  · have h7 := hInv.exec_count
    simp [CachePhase.isWFetch] at hcount
    show s.execs + (s.callers.set i (CachePhase.wSetStale r)).countP
        CachePhase.isWFetch = s.acq + s.dir
    omega
  · intro _
    exact hpast

/-- Invariant preservation for the winner's stale-key write. -/
theorem inv_step_set_stale {v₀ : Nat} {s : CacheState} {i : Nat} {r : Nat}
    (hget : s.callers.get? i = some (CachePhase.wSetStale r))
    (hInv : CacheInv v₀ s) :
    CacheInv v₀
      { setPhase s i (CachePhase.wDelLock r) with stale := some r } := by
  have hr : r = v₀ := hInv.caller_val _ (List.get?_mem hget)
  have hcount := countP_set_of_get? hget CachePhase.isWFetch
    (CachePhase.wDelLock r)
  have hfr : s.fresh.isSome = true :=
    hInv.publish_fresh _ (List.get?_mem hget) rfl
  have hpast : 1 ≤ s.execs := hInv.exec_pos (Or.inr (Or.inr
    ⟨CachePhase.wSetStale r, List.get?_mem hget, rfl⟩))
  constructor
  · exact hInv.fresh_val
  · exact Or.inr (by rw [hr])
  · intro x hx
    rcases List.mem_or_eq_of_mem_set hx with hmx | rfl
    · exact hInv.caller_val x hmx
    · exact hr
  · intro _ hfresh
    have hfresh' : s.fresh = none := hfresh
    rw [hfresh'] at hfr
    cases hfr
  · intro x hx hsdx
    exact hfr
  · exact hInv.late
  · have h7 := hInv.exec_count
    simp [CachePhase.isWFetch] at hcount
    show s.execs + (s.callers.set i (CachePhase.wDelLock r)).countP
        CachePhase.isWFetch = s.acq + s.dir
    omega
  · intro _
    exact hpast

/-- Invariant preservation for the winner's lock release. -/
theorem inv_step_release {v₀ : Nat} {s : CacheState} {i : Nat} {r : Nat}
    (hget : s.callers.get? i = some (CachePhase.wDelLock r))
    (hInv : CacheInv v₀ s) :
    CacheInv v₀ { setPhase s i (CachePhase.done r) with lock := false } := by
  have hr : r = v₀ := hInv.caller_val _ (List.get?_mem hget)
  have hcount := countP_set_of_get? hget CachePhase.isWFetch
    (CachePhase.done r)
  have hfr : s.fresh.isSome = true :=
    hInv.publish_fresh _ (List.get?_mem hget) rfl
  have hpast : 1 ≤ s.execs := hInv.exec_pos (Or.inr (Or.inr
    ⟨CachePhase.wDelLock r, List.get?_mem hget, rfl⟩))
  constructor
  · exact hInv.fresh_val
  · exact hInv.stale_val
  · intro x hx
    rcases List.mem_or_eq_of_mem_set hx with hmx | rfl
    · exact hInv.caller_val x hmx
    · exact hr
  · intro _ hfresh
    have hfresh' : s.fresh = none := hfresh
    rw [hfresh'] at hfr
    cases hfr
  · intro x hx hsdx
    rcases List.mem_or_eq_of_mem_set hx with hmx | rfl
    · exact hInv.publish_fresh x hmx hsdx
    · simp [CachePhase.isStaleOrDel] at hsdx
  · exact hInv.late
  · have h7 := hInv.exec_count
    simp [CachePhase.isWFetch] at hcount
    show s.execs + (s.callers.set i (CachePhase.done r)).countP
        CachePhase.isWFetch = s.acq + s.dir
    omega
  · intro _
    exact hpast

/-- Invariant preservation for the last-resort direct fetch. -/
theorem inv_step_direct {v₀ : Nat} {s : CacheState} {i : Nat}
    (hget : s.callers.get? i = some CachePhase.direct)
    (hInv : CacheInv v₀ s) :
    CacheInv v₀
      { setPhase s i (CachePhase.done v₀) with
        execs := s.execs + 1
        dir := s.dir + 1 } := by
  have hcount := countP_set_of_get? hget CachePhase.isWFetch
    (CachePhase.done v₀)
  constructor
  · exact hInv.fresh_val
  · exact hInv.stale_val
  · intro x hx
    rcases List.mem_or_eq_of_mem_set hx with hmx | rfl
    · exact hInv.caller_val x hmx
    · exact rfl
  · exact hInv.lock_acq
  · intro x hx hsdx
    rcases List.mem_or_eq_of_mem_set hx with hmx | rfl
    · exact hInv.publish_fresh x hmx hsdx
    · simp [CachePhase.isStaleOrDel] at hsdx
  · exact hInv.late
  · have h7 := hInv.exec_count
    simp [CachePhase.isWFetch] at hcount
    show s.execs + 1 + (s.callers.set i (CachePhase.done v₀)).countP
        CachePhase.isWFetch = s.acq + (s.dir + 1)
    omega
  · intro _
    show 1 ≤ s.execs + 1
    omega

/-- One event of the cache model preserves the run invariant. -/
theorem cacheStep_inv (v₀ : Nat) (s : CacheState) (e : CacheEvent)
    (hInv : CacheInv v₀ s) : CacheInv v₀ (cacheStep v₀ s e) := by
  rcases e with i | _
  case expire =>
    unfold cacheStep
    rcases hlock : s.lock
    · exact hInv
    · constructor
      · exact hInv.fresh_val
      · exact hInv.stale_val
      · exact hInv.caller_val
      · intro hexp
        cases hexp
      · exact hInv.publish_fresh
      · intro hexp
        cases hexp
      · exact hInv.exec_count
      · exact hInv.exec_pos
  show CacheInv v₀ (cacheStepAct v₀ s i)
  unfold cacheStepAct
  rcases hget : s.callers.get? i with _ | ph
  · exact hInv
  rcases ph with _ | _ | _ | r | r | r | budget | _ | _ | r
  case start =>
    rcases hfresh : s.fresh with _ | v
    · exact inv_pure_step CachePhase.tryLock hget hInv trivial rfl
        (by intro h; cases h) (by intro h; cases h)
    · have hv : v = v₀ := by
        rcases hInv.fresh_val with h | h
        · rw [hfresh] at h; cases h
        · rw [hfresh] at h; exact Option.some.inj h
      exact inv_pure_step (CachePhase.done v) hget hInv hv rfl
        (by intro h; cases h)
        (fun _ => hInv.exec_pos (Or.inl (by rw [hfresh]; rfl)))
  case tryLock =>
    rcases hlock : s.lock
    · exact inv_step_acquire hget hlock hInv
    · exact inv_pure_step (CachePhase.polling lockMaxRetries) hget hInv
        trivial rfl (by intro h; cases h) (by intro h; cases h)
  case wFetch => exact inv_step_fetch hget hInv
  case wSetFresh => exact inv_step_set_fresh hget hInv
  case wSetStale => exact inv_step_set_stale hget hInv
  case wDelLock => exact inv_step_release hget hInv
  case polling =>
    rcases budget with _ | b
    · exact inv_pure_step CachePhase.readStale hget hInv trivial rfl
        (by intro h; cases h) (by intro h; cases h)
    · rcases hfresh : s.fresh with _ | v
      · exact inv_pure_step (CachePhase.polling b) hget hInv trivial rfl
          (by intro h; cases h) (by intro h; cases h)
      · have hv : v = v₀ := by
          rcases hInv.fresh_val with h | h
          · rw [hfresh] at h; cases h
          · rw [hfresh] at h; exact Option.some.inj h
        exact inv_pure_step (CachePhase.done v) hget hInv hv rfl
          (by intro h; cases h)
          (fun _ => hInv.exec_pos (Or.inl (by rw [hfresh]; rfl)))
  case readStale =>
    rcases hstale : s.stale with _ | v
    · exact inv_pure_step CachePhase.direct hget hInv trivial rfl
        (by intro h; cases h) (by intro h; cases h)
    · have hv : v = v₀ := by
        rcases hInv.stale_val with h | h
        · rw [hstale] at h; cases h
        · rw [hstale] at h; exact Option.some.inj h
      exact inv_pure_step (CachePhase.done v) hget hInv hv rfl
        (by intro h; cases h)
        (fun _ => hInv.exec_pos (Or.inr (Or.inl (by rw [hstale]; rfl))))
  case direct => exact inv_step_direct hget hInv
  case done => exact hInv

/-- The initial state satisfies the run invariant. -/
theorem cacheInit_inv (v₀ n : Nat) : CacheInv v₀ (cacheInit n) := by
  constructor
  · exact Or.inl rfl
  · exact Or.inl rfl
  · intro x hx
    rw [(List.mem_replicate.mp hx).2]
    trivial
  · intro _ _
    exact Or.inl ⟨rfl, rfl⟩
  · intro x hx hsdx
    rw [(List.mem_replicate.mp hx).2] at hsdx
    cases hsdx
  · intro _ _
    show (0 : Nat) ≤ 1
    omega
  · show 0 + (List.replicate n CachePhase.start).countP CachePhase.isWFetch =
      0 + 0
    rw [List.countP_replicate]
    simp [CachePhase.isWFetch]
  · intro htrig
    rcases htrig with h | h | ⟨x, hx, hpx⟩
    · cases h
    · cases h
    · rw [(List.mem_replicate.mp hx).2] at hpx
      cases hpx

/-- Every reachable state of a run satisfies the invariant. -/
theorem cacheRun_inv (v₀ n : Nat) (sched : List CacheEvent) :
    CacheInv v₀ (cacheRun v₀ n sched) := by
  unfold cacheRun
  have key : ∀ (l : List CacheEvent) (s : CacheState), CacheInv v₀ s →
      CacheInv v₀ (l.foldl (cacheStep v₀) s) := by
    intro l
    induction l with
    | nil => exact fun s h => h
    | cons a t ih => exact fun s h => ih _ (cacheStep_inv v₀ s a h)
  exact key sched _ (cacheInit_inv v₀ n)

/-- An event never changes the number of callers. -/
theorem cacheStep_length (v₀ : Nat) (s : CacheState) (e : CacheEvent) :
    (cacheStep v₀ s e).callers.length = s.callers.length := by
  rcases e with i | _
  · show (cacheStepAct v₀ s i).callers.length = s.callers.length
    unfold cacheStepAct
    repeat' split <;> try rfl
    all_goals simp [setPhase]
  · show (if s.lock then { s with lock := false, lockExpired := true }
      else s).callers.length = s.callers.length
    split <;> rfl

/-- A run of `n` callers always has `n` callers. -/
theorem cacheRun_length (v₀ n : Nat) (sched : List CacheEvent) :
    (cacheRun v₀ n sched).callers.length = n := by
  unfold cacheRun
  have key : ∀ (l : List CacheEvent) (s : CacheState),
      (l.foldl (cacheStep v₀) s).callers.length = s.callers.length := by
    intro l
    induction l with
    | nil => exact fun _ => rfl
    | cons a t ih => exact fun s => (ih _).trans (cacheStep_length v₀ s a)
  rw [key]
  exact List.length_replicate ..

/-- Counterexample to C9 as stated: a run of two callers that both observe
the initial cache miss (the first two scheduled actions are their initial
`get`s, while the key is absent and the store healthy) in which the source
is executed TWICE — the second caller's `SET NX` is scheduled only after
the winner released the lock, so it acquires the freed lock and runs
`fetch_fn` again, because `get_or_fetch` never re-checks the cache after
acquiring the lock (`redis_cache.rs` lines 102-121). -/
theorem c9_single_flight_counterexample :
    allDone (cacheRun 7 2 c9BadSched) = true ∧
    (cacheRun 7 2 c9BadSched).execs = 2 ∧
    cacheResults (cacheRun 7 2 c9BadSched) = [7, 7] := by
  refine ⟨?_, ?_, ?_⟩ <;> decide

/-- C9 (amended): over every schedule of N `get_or_fetch` callers on one
initially absent key over a healthy store — lock-TTL expiries, poll
exhaustion and late lock acquisitions included — every caller that
completes returns a value equal to the source's result, on the fresh,
polled, stale and direct paths alike; and the source function runs
exactly once in every run where all callers complete, no caller falls
back to the direct fetch, no caller acquires the lock after the fresh
key was already populated, and the lock's TTL never elapses while the
lock is held. -/
theorem c9_single_flight_amended (v₀ n : Nat) (sched : List CacheEvent) :
    (∀ r ∈ cacheResults (cacheRun v₀ n sched), r = v₀) ∧
    (allDone (cacheRun v₀ n sched) = true →
      (cacheRun v₀ n sched).dir = 0 →
      (cacheRun v₀ n sched).lateAcq = false →
      (cacheRun v₀ n sched).lockExpired = false →
      0 < n →
      (cacheRun v₀ n sched).execs = 1) := by
  have hInv := cacheRun_inv v₀ n sched
  have hlen := cacheRun_length v₀ n sched
  constructor
  · intro r hr
    obtain ⟨ph, hmem, hf⟩ := List.mem_filterMap.mp hr
    have hv := hInv.caller_val ph hmem
    rcases ph <;> simp at hf
    · rw [← hf]
      exact hv
  · intro h1 h2 h3 hexp h4
    have hc0 : (cacheRun v₀ n sched).callers.countP CachePhase.isWFetch = 0 := by
      rw [List.countP_eq_zero]
      intro x hx
      have hd := List.all_eq_true.mp h1 x hx
      rcases x <;> simp [CachePhase.isDone] at hd <;>
        simp [CachePhase.isWFetch]
    have h7 := hInv.exec_count
    have hacq : (cacheRun v₀ n sched).acq ≤ 1 := hInv.late hexp h3
    obtain ⟨x, hx⟩ := List.exists_mem_of_length_pos (hlen ▸ h4)
    have hxdone := List.all_eq_true.mp h1 x hx
    have hxpast : CachePhase.isPastFetch x = true := by
      rcases x <;> simp [CachePhase.isDone] at hxdone <;> rfl
    have hex1 : 1 ≤ (cacheRun v₀ n sched).execs :=
      hInv.exec_pos (Or.inr (Or.inr ⟨x, hx, hxpast⟩))
    omega

/-- Witness for C9 (amended): the value conjunct exercised on the degraded
double-fetch run of `c9BadSched` (the returned value 7 equals the source's
value), and the exactly-once conjunct on `c9GoodSched`, whose run
satisfies all five side conditions. -/
theorem c9_single_flight_amended_witness :
    (7 ∈ cacheResults (cacheRun 7 2 c9BadSched) ∧ 7 = 7) ∧
    (allDone (cacheRun 7 2 c9GoodSched) = true ∧
      (cacheRun 7 2 c9GoodSched).dir = 0 ∧
      (cacheRun 7 2 c9GoodSched).lateAcq = false ∧
      (cacheRun 7 2 c9GoodSched).lockExpired = false ∧
      (cacheRun 7 2 c9GoodSched).execs = 1) :=
  ⟨⟨by decide, (c9_single_flight_amended 7 2 c9BadSched).1 7 (by decide)⟩,
    ⟨by decide, by decide, by decide, by decide,
      (c9_single_flight_amended 7 2 c9GoodSched).2 (by decide) (by decide)
        (by decide) (by decide) (by decide)⟩⟩

/-- The model contains the program's TTL hazard: when the lock expires
while held (`redis_cache.rs` line 8, `LOCK_TTL_SECONDS`), a second caller
can acquire before publication and the source runs twice even though no
caller used the direct fallback and no acquisition happened after
publication — which is why the exactly-once conjunct of the amended C9
carries the `lockExpired = false` proviso. -/
theorem cacheRun_ttl_expiry_double_fetch :
    (cacheRun 7 2 c9TtlSched).lockExpired = true ∧
    (cacheRun 7 2 c9TtlSched).dir = 0 ∧
    (cacheRun 7 2 c9TtlSched).lateAcq = false ∧
    allDone (cacheRun 7 2 c9TtlSched) = true ∧
    (cacheRun 7 2 c9TtlSched).execs = 2 := by
  refine ⟨?_, ?_, ?_, ?_, ?_⟩ <;> decide

end TYL
